import Mathlib

/-!
Shallow embedding of the admission and coordination layer of the
`myos-demo-quiz` repository:

* `MyOsWebhookVerifier.verify` / `markDelivered` and the
  `WebhookVerificationError` taxonomy (packages/webhook/src/webhook-verifier.ts);
* `JwksKeyCache.refresh` / `bumpKeyExpiry` and `createVerifierFromJwk`
  (same file);
* `DynamoWebhookDeliveryStore.hasSeen` / `markHandled`;
* `DynamoTimelineRegistry.checkAndRegister`;
* `DynamoRateLimiter.tryConsume` / `formatUtcHour`
  (packages/persistence-ddb/src/DynamoTimelineRegistry.ts);
* `CappedAiClient.generateQuestion` (packages/ai-openai/src/CappedAiClient.ts).

The DynamoDB tables are modelled as association lists keyed by the
`(pk, sk)` pair, operated on sequentially (linearized conditional writes,
strongly consistent reads, and no TTL deletion happening in the middle of a
call).  Cryptographic primitives (SHA-256 + base64, Ed25519 key import and
HTTP-message-signature verification) are kept abstract: the verifier is
parameterised by the hash function and by the outcome of the signature
library call, since no claim depends on the internals of those primitives.
JavaScript built-ins that the source relies on (`Number(...)`,
`parseInt(...)`, `Map.set`, truthiness of strings and numbers) are modelled
on their documented ECMA behaviour for the value shapes this code can
receive; `jsNumber` covers the finite decimal-literal subset of `Number`
(hexadecimal and infinite forms are outside of the model's domain).
-/

/-! ## Association-list model of a conditional key-value store -/

/-- First-match lookup in an association list (the store holds at most one
item per key, and JS `Map.get` returns the unique binding). -/
def listGet {α β : Type} [DecidableEq α] (m : List (α × β)) (k : α) : Option β :=
  match m with
  | [] => none
  | (k', v) :: rest => if k' = k then some v else listGet rest k

/-- Write-or-replace in an association list.  Replacing keeps the entry in
place, inserting appends at the end — the iteration-order semantics of a JS
`Map.set` and of a keyed DynamoDB put. -/
def listSet {α β : Type} [DecidableEq α] (m : List (α × β)) (k : α) (v : β) :
    List (α × β) :=
  match m with
  | [] => [(k, v)]
  | (k', v') :: rest => if k' = k then (k, v) :: rest else (k', v') :: listSet rest k v

/-! ## JavaScript string / number helpers used by the source -/

/-- JS truthiness of an optional string: `undefined` and `""` are falsy. -/
def strFalsy : Option String → Bool
  | none => true
  | some s => s = ""

/-- Digits of a decimal literal, most significant first, to a natural. -/
def natOfDigits (ds : List Char) : Nat :=
  ds.foldl (fun acc c => acc * 10 + (c.toNat - 48)) 0

/-- Split off the longest leading run of ASCII digits. -/
def takeDigits : List Char → List Char × List Char
  | [] => ([], [])
  | c :: rest =>
    if c.isDigit then
      let p := takeDigits rest
      (c :: p.1, p.2)
    else ([], c :: rest)

/-- Optional leading sign; returns whether the value is negated. -/
def parseSignChars : List Char → Bool × List Char
  | '-' :: rest => (true, rest)
  | '+' :: rest => (false, rest)
  | cs => (false, cs)

/-- Optional exponent part of a decimal literal (`e`/`E`, optional sign,
digits, end of input). -/
def parseExpPart (m : Rat) (cs : List Char) : Option Rat :=
  match cs with
  | [] => some m
  | c :: rest =>
    if c = 'e' ∨ c = 'E' then
      let s := parseSignChars rest
      let p := takeDigits s.2
      if p.1.isEmpty ∨ ¬ p.2.isEmpty then none
      else
        let e := natOfDigits p.1
        some (if s.1 then m / (10 : Rat) ^ e else m * (10 : Rat) ^ e)
    else none

/-- A finite decimal literal: optional sign, integer part, optional
fractional part, optional exponent.  `none` models JS `NaN`. -/
def parseDecimalChars (cs : List Char) : Option Rat :=
  let s := parseSignChars cs
  let ip := takeDigits s.2
  let signed : Rat → Rat := fun v => if s.1 then -v else v
  match ip.2 with
  | '.' :: cs3 =>
    let fp := takeDigits cs3
    if ip.1.isEmpty ∧ fp.1.isEmpty then none
    else
      let m : Rat := (natOfDigits ip.1 : Rat) + (natOfDigits fp.1 : Rat) / (10 : Rat) ^ fp.1.length
      (parseExpPart m fp.2).map signed
  | _ =>
    if ip.1.isEmpty then none
    else (parseExpPart (natOfDigits ip.1 : Rat) ip.2).map signed

/-- ECMA `StrWhiteSpaceChar` subset relevant to header values. -/
def isJsSpace (c : Char) : Bool :=
  c == ' ' || c == '\t' || c == '\n' || c == '\r' || c == '\x0b' || c == '\x0c'

/-- ASCII lower-casing of one character (header names and cache-control
directives are ASCII, where JS `toLowerCase` acts exactly like this). -/
def charToLower (c : Char) : Char :=
  if 'A' ≤ c ∧ c ≤ 'Z' then Char.ofNat (c.toNat + 32) else c

/-- ASCII upper-casing of one character (budget names are ASCII). -/
def charToUpper (c : Char) : Char :=
  if 'a' ≤ c ∧ c ≤ 'z' then Char.ofNat (c.toNat - 32) else c

/-- JS `String.prototype.toLowerCase` on ASCII strings. -/
def jsToLower (s : String) : String := ⟨s.data.map charToLower⟩

/-- JS `String.prototype.toUpperCase` on ASCII strings. -/
def jsToUpper (s : String) : String := ⟨s.data.map charToUpper⟩

/-- JS `String.prototype.split(sep)` for a one-character separator. -/
def splitOnChar (sep : Char) : List Char → List (List Char)
  | [] => [[]]
  | c :: rest =>
    let r := splitOnChar sep rest
    if c = sep then [] :: r
    else (c :: r.headD []) :: r.tail

/-- JS `String.prototype.trim` over the character list. -/
def trimChars (cs : List Char) : List Char :=
  ((cs.dropWhile isJsSpace).reverse.dropWhile isJsSpace).reverse

/-- JS `Number(string)` on the finite decimal-literal subset: trims
whitespace, maps the empty string to `0`, and yields `none` for `NaN`. -/
def jsNumber (s : String) : Option Rat :=
  let cs := ((s.data.dropWhile isJsSpace).reverse.dropWhile isJsSpace).reverse
  if cs.isEmpty then some 0 else parseDecimalChars cs

/-- JS `parseInt(value, 10)`: trims leading whitespace, optional sign,
longest leading digit run; `none` models `NaN`. -/
def jsParseInt (s : String) : Option Int :=
  let cs := s.data.dropWhile isJsSpace
  let sg := parseSignChars cs
  let p := takeDigits sg.2
  if p.1.isEmpty then none
  else some (if sg.1 then -(natOfDigits p.1 : Int) else (natOfDigits p.1 : Int))

/-! ## DynamoWebhookDeliveryStore (replay guard) -/

/-- One store round-trip performed by the delivery store. -/
inductive StoreOp where
  | get (pk sk : String)
  | putIfAbsent (pk sk : String)
deriving DecidableEq, Repr

/-- A delivery record: created once per delivery identifier, never updated. -/
structure DeliveryItem where
  firstSeenAt : Int
  expiresAt : Int
deriving DecidableEq, Repr

/-- The replay-guard table, keyed by `(pk, sk)`. -/
abbrev DeliveryStore := List ((String × String) × DeliveryItem)

/-- `DynamoWebhookDeliveryStore.hasSeen`: rejects an empty delivery
identifier before touching the store, otherwise performs one strongly
consistent get on `(WEBHOOK#DELIVERY, deliveryId)`.  The second component
is the trace of store operations attempted. -/
def hasSeen (store : DeliveryStore) (deliveryId : String) :
    Except String Bool × List StoreOp :=
  if deliveryId = "" then (.error "deliveryId is required", [])
  else
    ((.ok (listGet store ("WEBHOOK#DELIVERY", deliveryId)).isSome),
      [.get "WEBHOOK#DELIVERY" deliveryId])

/-- `DynamoWebhookDeliveryStore.markHandled`: rejects an empty delivery
identifier before touching the store, otherwise performs one conditional
`attribute_not_exists(pk)` put.  `true` means this call created the
record; a `ConditionalCheckFailedException` is returned as `false` with
the store unchanged. -/
def markHandled (store : DeliveryStore) (deliveryId : String)
    (ttlSeconds : Option Int) (replayTtlDefault : Int) (nowMs : Int) :
    Except String (Bool × DeliveryStore) × List StoreOp :=
  if deliveryId = "" then (.error "deliveryId is required", [])
  else
    let seconds := max 1 (ttlSeconds.getD replayTtlDefault)
    let firstSeenAt := Int.fdiv nowMs 1000
    let key := ("WEBHOOK#DELIVERY", deliveryId)
    match listGet store key with
    | some _ => (.ok (false, store), [.putIfAbsent "WEBHOOK#DELIVERY" deliveryId])
    | none =>
      (.ok (true, listSet store key ⟨firstSeenAt, firstSeenAt + seconds⟩),
        [.putIfAbsent "WEBHOOK#DELIVERY" deliveryId])

/-! ## MyOsWebhookVerifier -/

/-- A `WebhookVerificationError`: machine-readable reason plus the HTTP
status hint (the constructor default is `401`). -/
structure VError where
  reason : String
  statusCode : Nat
deriving DecidableEq, Repr

/-- Outcome of the `http-message-signatures` `verifyMessage` call, kept
abstract: it succeeded, returned a non-true value, threw a
`WebhookVerificationError` (e.g. one surfaced from the key cache), or threw
any other error (malformed signature, wrong key, tampered field, expired
`created`, unknown key). -/
inductive SigOutcome where
  | ok
  | indeterminate
  | failed (e : VError)
  | otherError
deriving DecidableEq, Repr

/-- The `catch` in `MyOsWebhookVerifier.verifySignature`: a thrown
`WebhookVerificationError` is re-raised as-is, `verified = false` becomes
`signature_indeterminate` (default status 401), anything else collapses to
`invalid_signature` with the default status 401. -/
def sigVerifyResult : SigOutcome → Except VError Unit
  | .ok => .ok ()
  | .indeterminate => .error ⟨"signature_indeterminate", 401⟩
  | .failed e => .error e
  | .otherError => .error ⟨"invalid_signature", 401⟩

/-- Failure of `verify`: a thrown `WebhookVerificationError` or a plain
error propagated from the delivery store. -/
inductive VerifyFailure where
  | verification (e : VError)
  | storeError (msg : String)
deriving DecidableEq, Repr

/-- The successful result of `verify`. -/
structure VerificationOutcome where
  deliveryId : String
  duplicate : Bool
deriving DecidableEq, Repr

/-- `normalizeHeaders`: lower-cases header names, skips empty names, later
entries overwrite earlier ones (JS `Map.set`). -/
def normalizeHeaders (headers : List (String × String)) : List (String × String) :=
  headers.foldl
    (fun m kv => if kv.1 = "" then m else listSet m (jsToLower kv.1) kv.2) []

/-- Configuration of `MyOsWebhookVerifier` relevant to `verify`:
the clock-skew tolerance, the replay TTL handed to `markHandled`, and the
abstracted `base64(sha256(·))` used by `computeContentDigest`. -/
structure VerifierConfig where
  toleranceSeconds : Rat
  replayTtlSeconds : Int
  hashB64 : List Nat → String

/-- One inbound webhook request: raw header list, raw body bytes, and the
abstracted outcome of the HTTP-message-signature verification for this
request. -/
structure WebhookRequest where
  headers : List (String × String)
  rawBody : List Nat
  sigOutcome : SigOutcome

/-- `computeContentDigest`: SHA-256 over the raw body, base64, wrapped in
the algorithm-tagged format. -/
def computeContentDigest (hashB64 : List Nat → String) (raw : List Nat) : String :=
  "sha-256=:" ++ hashB64 raw ++ ":"

/-- `MyOsWebhookVerifier.verify`: the guard pipeline in source order —
content-digest presence, digest comparison, timestamp presence/parse,
freshness window, delivery-id presence, signature-header presence,
signature verification, then the replay-guard lookup. -/
def verify (cfg : VerifierConfig) (req : WebhookRequest) (nowSeconds : Int)
    (store : DeliveryStore) : Except VerifyFailure VerificationOutcome :=
  let headers := normalizeHeaders req.headers
  match listGet headers "content-digest" with
  | none => .error (.verification ⟨"missing_content_digest", 400⟩)
  | some contentDigest =>
    if contentDigest = "" then .error (.verification ⟨"missing_content_digest", 400⟩)
    else if contentDigest ≠ computeContentDigest cfg.hashB64 req.rawBody then
      .error (.verification ⟨"invalid_content_digest", 400⟩)
    else
      match listGet headers "x-myos-timestamp" with
      | none => .error (.verification ⟨"missing_timestamp", 400⟩)
      | some timestampHeader =>
        if timestampHeader = "" then .error (.verification ⟨"missing_timestamp", 400⟩)
        else
          match jsNumber timestampHeader with
          | none => .error (.verification ⟨"missing_timestamp", 400⟩)
          | some timestamp =>
            if |(nowSeconds : Rat) - timestamp| > cfg.toleranceSeconds then
              .error (.verification ⟨"timestamp_out_of_window", 400⟩)
            else
              match listGet headers "x-myos-delivery-id" with
              | none => .error (.verification ⟨"missing_delivery_id", 400⟩)
              | some deliveryId =>
                if deliveryId = "" then .error (.verification ⟨"missing_delivery_id", 400⟩)
                else if strFalsy (listGet headers "signature-input")
                    || strFalsy (listGet headers "signature") then
                  .error (.verification ⟨"missing_signature", 400⟩)
                else
                  match sigVerifyResult req.sigOutcome with
                  | .error e => .error (.verification e)
                  | .ok _ =>
                    match (hasSeen store deliveryId).1 with
                    | .error m => .error (.storeError m)
                    | .ok duplicate => .ok ⟨deliveryId, duplicate⟩

/-- `MyOsWebhookVerifier.markDelivered`: commit the delivery record through
`markHandled` with the verifier's replay TTL, ignoring the created/existed
boolean. -/
def markDelivered (cfg : VerifierConfig) (store : DeliveryStore)
    (deliveryId : String) (nowMs : Int) : Except String DeliveryStore :=
  match (markHandled store deliveryId (some cfg.replayTtlSeconds) 86400 nowMs).1 with
  | .error m => .error m
  | .ok p => .ok p.2

/-- All guard conditions of `verify` holding for a request carrying
delivery identifier `d`: matching content digest, parseable timestamp
within tolerance, present delivery id and signature headers, and a
signature the crypto library accepts. -/
def ValidRequest (cfg : VerifierConfig) (req : WebhookRequest)
    (nowSeconds : Int) (d : String) : Prop :=
  listGet (normalizeHeaders req.headers) "content-digest"
      = some (computeContentDigest cfg.hashB64 req.rawBody) ∧
  (∃ tstr ts, listGet (normalizeHeaders req.headers) "x-myos-timestamp" = some tstr ∧
    tstr ≠ "" ∧ jsNumber tstr = some ts ∧
    |(nowSeconds : Rat) - ts| ≤ cfg.toleranceSeconds) ∧
  listGet (normalizeHeaders req.headers) "x-myos-delivery-id" = some d ∧ d ≠ "" ∧
  (∃ si, listGet (normalizeHeaders req.headers) "signature-input" = some si ∧ si ≠ "") ∧
  (∃ sg, listGet (normalizeHeaders req.headers) "signature" = some sg ∧ sg ≠ "") ∧
  req.sigOutcome = .ok

/-! ## JwksKeyCache -/

/-- A cached verification key: the created verifier object plus its expiry
instant (epoch milliseconds).  `K` is the abstract type of verifier
objects. -/
structure CachedKey (K : Type) where
  key : K
  expiresAt : Int
deriving DecidableEq, Repr

/-- `JwksKeyCache` state: cache map keyed by key identifier, last ETag,
next-allowed-refresh instant, and the current max-age in milliseconds
(initially `DEFAULT_CACHE_TTL_MS = 300000`). -/
structure CacheState (K : Type) where
  keyCache : List (String × CachedKey K)
  etag : Option String
  nextRefresh : Int
  maxAgeMs : Int
deriving DecidableEq, Repr

/-- One JWK record of the key-set document.  `x` and `kid` are optional
strings (absent fields model `undefined`). -/
structure Jwk where
  kty : String
  crv : String
  x : Option String
  kid : Option String
deriving DecidableEq, Repr

/-- The key-set endpoint's HTTP response: status, `ETag` and
`Cache-Control` headers, and the parsed `keys` array (`none` models a
payload without a well-formed `keys` array). -/
structure JwksResponse where
  status : Nat
  etagHeader : Option String
  cacheControl : Option String
  keys : Option (List Jwk)
deriving DecidableEq, Repr

/-- Result of the `fetch` call: transport failure or a response. -/
inductive FetchResult where
  | netError
  | success (r : JwksResponse)
deriving DecidableEq, Repr

/-- The object `createVerifierFromJwk` returns: key id, algorithm list,
and the verifier built from the public key. -/
structure VerifierRec (K : Type) where
  id : String
  algs : List String
  vkey : K
deriving DecidableEq, Repr

/-- `createVerifierFromJwk`: accept only `OKP`/`Ed25519` keys with a
truthy `x` coordinate and a truthy `kid`; `mkPub` abstracts
`createPublicKey` + `createVerifier` on the `x` coordinate and returns
`none` when key import throws. -/
def createVerifierFromJwk {K : Type} (mkPub : String → Option K) (jwk : Jwk) :
    Option (VerifierRec K) :=
  if jwk.kty ≠ "OKP" ∨ jwk.crv ≠ "Ed25519" ∨ strFalsy jwk.x ∨ strFalsy jwk.kid then
    none
  else
    match mkPub (jwk.x.getD "") with
    | none => none
    | some k => some ⟨jwk.kid.getD "", ["ed25519"], k⟩

/-- `parseMaxAge` inner loop over comma-separated `Cache-Control`
directives: first `max-age=<n>` whose value parses to a non-negative
integer wins. -/
def parseMaxAgeGo : List (List Char) → Option Int
  | [] => none
  | d :: rest =>
    let parts := splitOnChar '=' (trimChars d)
    let nm := parts.getD 0 []
    let value := parts.getD 1 []
    if nm.map charToLower = "max-age".data ∧ value ≠ [] then
      match jsParseInt ⟨value⟩ with
      | some n => if 0 ≤ n then some n else parseMaxAgeGo rest
      | none => parseMaxAgeGo rest
    else parseMaxAgeGo rest

/-- `parseMaxAge` over the optional `Cache-Control` header value. -/
def parseMaxAge : Option String → Option Int
  | none => none
  | some hv => parseMaxAgeGo (splitOnChar ',' hv.data)

/-- `JwksKeyCache.bumpKeyExpiry`: set every cached entry's expiry to the
given instant, touching nothing else. -/
def bumpKeyExpiry {K : Type} (cache : List (String × CachedKey K)) (nextExpiry : Int) :
    List (String × CachedKey K) :=
  cache.map (fun kv => (kv.1, { kv.2 with expiresAt := nextExpiry }))

/-- The `for (const jwk of payload.keys)` import loop: skip entries whose
verifier cannot be created or whose `kid` is falsy, otherwise upsert the
cache entry with expiry `now + maxAgeMs`; also counts imported keys. -/
def jwksImportFold {K : Type} (mkPub : String → Option K) (now maxAgeMs : Int)
    (cache : List (String × CachedKey (VerifierRec K))) (keys : List Jwk) :
    List (String × CachedKey (VerifierRec K)) × Nat :=
  match keys with
  | [] => (cache, 0)
  | jwk :: rest =>
    match createVerifierFromJwk mkPub jwk with
    | none => jwksImportFold mkPub now maxAgeMs cache rest
    | some key =>
      if strFalsy jwk.kid then jwksImportFold mkPub now maxAgeMs cache rest
      else
        let c1 := listSet cache (jwk.kid.getD "") ⟨key, now + maxAgeMs⟩
        let p := jwksImportFold mkPub now maxAgeMs c1 rest
        (p.1, p.2 + 1)

/-- `response.ok`: HTTP status in the 200–299 range. -/
def respOk (r : JwksResponse) : Prop := 200 ≤ r.status ∧ r.status ≤ 299

instance (r : JwksResponse) : Decidable (respOk r) := by
  unfold respOk; infer_instance

/-- `JwksKeyCache.refresh`: early return while `nextRefresh` is in the
future; transport failure is `jwks_unreachable`; a `304` extends every
cached entry's expiry and the next-refresh instant by the current
max-age; a non-ok status is `jwks_http_error`; a payload without a keys
array is `jwks_invalid`; otherwise adopt the response's cache-control
max-age (default 300 s), ETag and next-refresh, import the supported
keys over the existing cache map, and fail with `jwks_empty` when the
resulting cache is empty and nothing was imported.  (On a thrown error the
model discards the partial state mutations; no claim observes the cache
after a failed refresh.) -/
def refresh {K : Type} (mkPub : String → Option K)
    (st : CacheState (VerifierRec K)) (now : Int) (force : Bool)
    (fr : FetchResult) : Except VError (CacheState (VerifierRec K)) :=
  if ¬ force ∧ st.nextRefresh > now then .ok st
  else
    match fr with
    | .netError => .error ⟨"jwks_unreachable", 401⟩
    | .success r =>
      if r.status = 304 then
        .ok { st with
          nextRefresh := now + st.maxAgeMs
          keyCache := bumpKeyExpiry st.keyCache (now + st.maxAgeMs) }
      else if ¬ respOk r then .error ⟨"jwks_http_error", 401⟩
      else
        match r.keys with
        | none => .error ⟨"jwks_invalid", 401⟩
        | some keys =>
          let maxAgeMs := ((parseMaxAge r.cacheControl).getD 300) * 1000
          let p := jwksImportFold mkPub now maxAgeMs st.keyCache keys
          if p.1.length = 0 ∧ p.2 = 0 then .error ⟨"jwks_empty", 401⟩
          else
            .ok { keyCache := p.1, etag := r.etagHeader,
                  nextRefresh := now + maxAgeMs, maxAgeMs := maxAgeMs }

/-- The max-age (milliseconds) adopted by a successful refresh — names the
`maxAgeMs` local of `refresh`. -/
def refreshMaxAgeMs (r : JwksResponse) : Int :=
  ((parseMaxAge r.cacheControl).getD 300) * 1000

/-- The cache map after the import loop of a successful refresh — names
the `p.1` local of `refresh`. -/
def refreshMerged {K : Type} (mkPub : String → Option K)
    (st : CacheState (VerifierRec K)) (now : Int) (r : JwksResponse)
    (keys : List Jwk) : List (String × CachedKey (VerifierRec K)) :=
  (jwksImportFold mkPub now (refreshMaxAgeMs r) st.keyCache keys).1

/-- The key identifiers the import loop writes: entries of the response
whose verifier is created and whose `kid` is truthy. -/
def supportedKids {K : Type} (mkPub : String → Option K) (keys : List Jwk) :
    List String :=
  keys.filterMap (fun jwk =>
    match createVerifierFromJwk mkPub jwk with
    | none => none
    | some _ => if strFalsy jwk.kid then none else some (jwk.kid.getD ""))

/-! ## DynamoTimelineRegistry (channel binding registry) -/

/-- A channel-binding record. -/
structure TimelineBinding where
  sessionId : String
  firstSeenAt : Int
  lastSeenAt : Int
  expiresAt : Int
deriving DecidableEq, Repr

/-- The binding table keyed by `(pk, sk)`. -/
abbrev RegState := List ((String × String) × TimelineBinding)

/-- The item key used for a channel (timeline) identifier. -/
def timelineKey (timelineId : String) : String × String :=
  ("TIMELINE#" ++ timelineId, "SESSION")

/-- Outcome of the per-channel `while (!bound && attempts < 3)` loop:
a foreign binding was found (the whole call returns `false`), the channel
was bound (created or refreshed) leaving the new state, or the attempts
were exhausted (the source then proceeds to the next channel). -/
inductive BindOutcome where
  | conflict
  | bound (s : RegState)
  | exhausted (s : RegState)

/-- One pass of the binding loop with the given remaining attempts, under
the sequential store semantics: the conditional `attribute_not_exists(pk)`
put succeeds exactly when the item is absent; on a conflict the strongly
consistent get returns that same item (the "item vanished, retry" branch
of the source is unreachable without a concurrent deleter); the
`sessionId`-guarded update then refreshes `lastSeenAt`/`expiresAt`. -/
def bindAttempt (timelineId sessionId : String) (nowS expiresAt : Int) :
    RegState → Nat → BindOutcome
  | s, 0 => .exhausted s
  | s, _ + 1 =>
    match listGet s (timelineKey timelineId) with
    | none =>
      .bound (listSet s (timelineKey timelineId) ⟨sessionId, nowS, nowS, expiresAt⟩)
    | some item =>
      if item.sessionId ≠ sessionId then .conflict
      else
        .bound (listSet s (timelineKey timelineId)
          { item with lastSeenAt := nowS, expiresAt := expiresAt })

/-- The `for (const timelineId of uniqueIds)` loop: a conflict returns
`false` for the whole call immediately; otherwise the loop continues with
the updated state and the call ends with `true`. -/
def registerAll (sessionId : String) (nowS expiresAt : Int) :
    RegState → List String → Bool × RegState
  | s, [] => (true, s)
  | s, timelineId :: rest =>
    match bindAttempt timelineId sessionId nowS expiresAt s 3 with
    | .conflict => (false, s)
    | .bound s1 => registerAll sessionId nowS expiresAt s1 rest
    | .exhausted s1 => registerAll sessionId nowS expiresAt s1 rest

/-- `Array.from(new Set(...))`: first-occurrence deduplication. -/
def dedupFirst : List String → List String
  | [] => []
  | x :: xs => x :: (dedupFirst xs).filter (fun y => y ≠ x)

/-- `DynamoTimelineRegistry.checkAndRegister`: no-op success on an empty
id list or falsy session id; ids are filtered of falsy entries and
deduplicated; the TTL is `max(1, ttlHours ?? defaultTtlHours)` hours. -/
def checkAndRegister (s : RegState) (timelineIds : List String)
    (sessionId : String) (ttlHours : Option Int) (defaultTtlHours : Int)
    (nowS : Int) : Bool × RegState :=
  if timelineIds.length = 0 ∨ sessionId = "" then (true, s)
  else
    let uniqueIds := dedupFirst (timelineIds.filter (fun t => t ≠ ""))
    if uniqueIds.length = 0 then (true, s)
    else
      let ttl := ttlHours.getD defaultTtlHours
      let ttlSeconds := max 1 ttl * 3600
      registerAll sessionId nowS (nowS + ttlSeconds) s uniqueIds

/-! ## DynamoRateLimiter (budget limiter) -/

/-- A JS `Date` as observed through its UTC accessors (`getUTCFullYear`,
`getUTCMonth` — zero-based, `getUTCDate`, `getUTCHours`). -/
structure JsDate where
  utcYear : Nat
  utcMonth : Nat
  utcDay : Nat
  utcHour : Nat
deriving DecidableEq, Repr

/-- `String.prototype.padStart(2, '0')`. -/
def padStart2 (s : String) : String :=
  if s.length ≥ 2 then s else if s.length = 1 then "0" ++ s else "00"

/-- `formatUtcHour`: `YYYYMMDDHH` built from the UTC components. -/
def formatUtcHour (d : JsDate) : String :=
  toString d.utcYear ++ padStart2 (toString (d.utcMonth + 1)) ++
    padStart2 (toString d.utcDay) ++ padStart2 (toString d.utcHour)

/-- Days since 1970-01-01 for a civil UTC date (1-based month), valid for
calendar dates with a positive year. -/
def daysFromCivil (y m d : Nat) : Int :=
  let yAdj := if m ≤ 2 then y - 1 else y
  let era := yAdj / 400
  let yoe := yAdj % 400
  let mp := if m > 2 then m - 3 else m + 9
  let doy := (153 * mp + 2) / 5 + d - 1
  let doe := yoe * 365 + yoe / 4 + doy - yoe / 100
  ((era * 146097 + doe : Nat) : Int) - 719468

/-- `Date.UTC(year, monthIndex, day, hour)` in epoch milliseconds. -/
def dateUtcMs (d : JsDate) : Int :=
  (daysFromCivil d.utcYear (d.utcMonth + 1) d.utcDay * 24 + d.utcHour) * 3600000

/-- `computeExpiry`: window start (top of the UTC hour) plus
`windowSeconds`, plus one extra hour for post-hoc inspection. -/
def computeExpiry (now : JsDate) (windowSeconds : Int) : Int :=
  Int.fdiv (dateUtcMs now) 1000 + windowSeconds + 3600

/-- A budget-window item: running count, stored limit, expiry. -/
structure BudgetItem where
  count : Int
  limit : Int
  expiresAt : Int
deriving DecidableEq, Repr

/-- The budget table keyed by `(pk, sk)`. -/
abbrev BudgetState := List ((String × String) × BudgetItem)

/-- The item key: `BUDGET#<NAME>` / `HOUR#<YYYYMMDDHH>`. -/
def budgetKey (budget : String) (now : JsDate) : String × String :=
  ("BUDGET#" ++ jsToUpper budget, "HOUR#" ++ formatUtcHour now)

/-- `DynamoRateLimiter.tryConsume`: one atomic conditional update,
`SET count = if_not_exists(count, 0) + 1` guarded by
`attribute_not_exists(count) OR count < limit`; a failed condition is
returned as `false` with the table untouched, never as an error. -/
def tryConsume (s : BudgetState) (budget : String) (windowSeconds limit : Int)
    (now : JsDate) : Bool × BudgetState :=
  let expiresAt := computeExpiry now windowSeconds
  let key := budgetKey budget now
  match listGet s key with
  | none => (true, listSet s key ⟨1, limit, expiresAt⟩)
  | some item =>
    if item.count < limit then
      (true, listSet s key ⟨item.count + 1, limit, expiresAt⟩)
    else (false, s)

/-! ## CappedAiClient -/

/-- Which client `generateQuestion` delegated to. -/
inductive AiCallPath where
  | real
  | mockForce
  | mockLimit
deriving DecidableEq, Repr

/-- JS truthiness of the optional boolean `forceMock`. -/
def jsTruthyBool : Option Bool → Bool
  | some true => true
  | _ => false

/-- JS `!maxPerHour` for an optional numeric field. -/
def jsFalsyNum : Option Int → Bool
  | none => true
  | some v => v == 0

/-- JS `maxPerHour <= 0` (`undefined <= 0` is false). -/
def jsNumLe0 : Option Int → Bool
  | none => false
  | some v => v ≤ 0

/-- `CappedAiClient.generateQuestion`: forced mock first; then the
uncapped fast path (`!maxPerHour || maxPerHour <= 0`) straight to the real
client; otherwise consult the budget limiter (abstracted as a state
transformer) and fall back to the mock client when the budget is
exhausted. -/
def generateQuestion (forceMock : Option Bool) (maxPerHour : Option Int)
    (limiter : BudgetState → Bool × BudgetState) (s : BudgetState) :
    AiCallPath × BudgetState :=
  if jsTruthyBool forceMock then (.mockForce, s)
  else if jsFalsyNum maxPerHour || jsNumLe0 maxPerHour then (.real, s)
  else
    let p := limiter s
    if p.1 then (.real, p.2) else (.mockLimit, p.2)

-- THEOREMS BELOW THIS LINE

/-- `listGet` after `listSet`. -/
theorem listGet_listSet {α β : Type} [DecidableEq α] (m : List (α × β)) (k k' : α) (v : β) :
    listGet (listSet m k v) k' = if k' = k then some v else listGet m k' := by
  induction m with
  | nil =>
    by_cases h : k' = k
    · subst h; simp [listGet, listSet]
    · simp [listGet, listSet, h, Ne.symm h]
  | cons p rest ih =>
    obtain ⟨k0, v0⟩ := p
    by_cases h0 : k0 = k
    · subst h0
      by_cases h : k' = k0
      · subst h; simp [listGet, listSet]
      · simp [listGet, listSet, h, Ne.symm h]
    · by_cases h : k' = k0
      · subst h
        simp [listGet, listSet, h0, Ne.symm h0]
      · simp [listGet, listSet, h0, h, Ne.symm h, ih]

/-- `listSet` never produces the empty list. -/
theorem listSet_ne_nil {α β : Type} [DecidableEq α] (m : List (α × β)) (k : α) (v : β) :
    listSet m k v ≠ [] := by
  cases m with
  | nil => simp [listSet]
  | cons p rest =>
    obtain ⟨k0, v0⟩ := p
    by_cases h : k0 = k <;> simp [listSet, h]

/-- `listGet` through `bumpKeyExpiry`: same identifiers, same key
material, uniform new expiry. -/
theorem listGet_bumpKeyExpiry {K : Type} (cache : List (String × CachedKey K))
    (next : Int) (k : String) :
    listGet (bumpKeyExpiry cache next) k
      = (listGet cache k).map (fun c => ⟨c.key, next⟩) := by
  induction cache with
  | nil => simp [bumpKeyExpiry, listGet]
  | cons p rest ih =>
    obtain ⟨k0, v0⟩ := p
    by_cases h : k0 = k
    · simp [bumpKeyExpiry, listGet, h]
    · have hL : listGet (bumpKeyExpiry ((k0, v0) :: rest) next) k
          = listGet (bumpKeyExpiry rest next) k := by
        show listGet ((k0, ⟨v0.key, next⟩) :: bumpKeyExpiry rest next) k = _
        simp only [listGet, if_neg h]
      have hR : listGet ((k0, v0) :: rest) k = listGet rest k := by
        simp only [listGet, if_neg h]
      rw [hL, hR, ih]

/-- Appending on the left is cancellative for strings. -/
theorem string_append_left_cancel {a b c : String} (h : a ++ b = a ++ c) : b = c := by
  have hd : (a ++ b).data = (a ++ c).data := congrArg String.data h
  simp only [String.data_append] at hd
  exact String.ext (List.append_cancel_left hd)

/-- The computed content digest is never the empty string (it carries the
`sha-256=:` tag). -/
theorem computeContentDigest_ne_empty (h : List Nat → String) (b : List Nat) :
    computeContentDigest h b ≠ "" := by
  intro hEq
  have hlen := congrArg String.length hEq
  simp [computeContentDigest, String.length_append] at hlen
  exact absurd hlen.1.1 (by decide)

/-- C9: when `forceMock` is not set and `maxPerHour` is undefined, zero or
negative, `generateQuestion` delegates to the real client, consults no
limiter (the result is the same for every limiter), and consumes no
budget (the budget state is returned unchanged). -/
theorem generateQuestion_uncapped_real (fm : Option Bool) (m : Option Int)
    (hfm : jsTruthyBool fm = false)
    (hm : m = none ∨ ∃ v, m = some v ∧ v ≤ 0) :
    ∀ (limiter : BudgetState → Bool × BudgetState) (s : BudgetState),
      generateQuestion fm m limiter s = (.real, s) := by
  intro limiter s
  have hcond : (jsFalsyNum m || jsNumLe0 m) = true := by
    rcases hm with h | ⟨v, hv, hle⟩
    · subst h; simp [jsFalsyNum]
    · subst hv
      simp only [jsFalsyNum, jsNumLe0, Bool.or_eq_true, beq_iff_eq, decide_eq_true_eq]
      omega
  simp [generateQuestion, hfm, hcond]

theorem generateQuestion_uncapped_real_witness :
    jsTruthyBool none = false ∧
    generateQuestion none (some (-1)) (fun s => (false, s)) [] = (.real, []) :=
  ⟨rfl, generateQuestion_uncapped_real none (some (-1)) rfl
    (Or.inr ⟨-1, rfl, by decide⟩) (fun s => (false, s)) []⟩

/-- C10: `hasSeen` and `markHandled` reject the empty delivery identifier
with a thrown error and an empty store-operation trace, while every
non-empty identifier performs exactly one store operation (one consistent
get, respectively one conditional put). -/
theorem delivery_store_empty_id_guard :
    (∀ s, hasSeen s "" = (.error "deliveryId is required", [])) ∧
    (∀ s ttl dflt now, markHandled s "" ttl dflt now
      = (.error "deliveryId is required", [])) ∧
    (∀ s d, d ≠ "" → (hasSeen s d).2 = [.get "WEBHOOK#DELIVERY" d]) ∧
    (∀ s d ttl dflt now, d ≠ "" →
      (markHandled s d ttl dflt now).2 = [.putIfAbsent "WEBHOOK#DELIVERY" d]) := by
  refine ⟨fun s => by simp [hasSeen], fun s ttl dflt now => by simp [markHandled], ?_, ?_⟩
  · intro s d hd; simp [hasSeen, hd]
  · intro s d ttl dflt now hd
    simp only [markHandled, if_neg hd]
    cases listGet s ("WEBHOOK#DELIVERY", d) <;> simp

theorem delivery_store_empty_id_guard_witness :
    hasSeen [] "" = (.error "deliveryId is required", []) ∧
    markHandled [] "" none 86400 0 = (.error "deliveryId is required", []) ∧
    (hasSeen [] "d1").2 = [.get "WEBHOOK#DELIVERY" "d1"] ∧
    (markHandled [] "d1" none 86400 0).2 = [.putIfAbsent "WEBHOOK#DELIVERY" "d1"] :=
  ⟨delivery_store_empty_id_guard.1 [],
   delivery_store_empty_id_guard.2.1 [] none 86400 0,
   delivery_store_empty_id_guard.2.2.1 [] "d1" (by decide),
   delivery_store_empty_id_guard.2.2.2 [] "d1" none 86400 0 (by decide)⟩

/-- C7: a `304 Not Modified` answer to a due refresh evicts nothing and
changes no key material or identifier — the cache map is the old one with
every entry's expiry set to `now + maxAge`, the next-refresh instant
becomes `now + maxAge`, and ETag and max-age are untouched. -/
theorem refresh_not_modified_extends {K : Type} (mkPub : String → Option K)
    (st : CacheState (VerifierRec K)) (now : Int) (r : JwksResponse)
    (hdue : st.nextRefresh ≤ now) (h304 : r.status = 304) :
    refresh mkPub st now false (.success r)
      = .ok { st with
          nextRefresh := now + st.maxAgeMs,
          keyCache := bumpKeyExpiry st.keyCache (now + st.maxAgeMs) } ∧
    (∀ kid, (listGet (bumpKeyExpiry st.keyCache (now + st.maxAgeMs)) kid).map (fun c => c.key)
        = (listGet st.keyCache kid).map (fun c => c.key)) ∧
    (∀ kid c, listGet (bumpKeyExpiry st.keyCache (now + st.maxAgeMs)) kid = some c →
        c.expiresAt = now + st.maxAgeMs) := by
  refine ⟨?_, ?_, ?_⟩
  · have hnot : ¬ st.nextRefresh > now := not_lt.mpr hdue
    simp [refresh, hnot, h304]
  · intro kid
    rw [listGet_bumpKeyExpiry]
    cases listGet st.keyCache kid <;> rfl
  · intro kid c hc
    rw [listGet_bumpKeyExpiry] at hc
    cases hg : listGet st.keyCache kid <;> rw [hg] at hc
    · cases hc
    · cases hc; rfl

/-- `supportedKids` over a cons whose head is imported. -/
theorem supportedKids_cons_some {K : Type} (mkPub : String → Option K)
    (jwk : Jwk) (rest : List Jwk) (key : VerifierRec K)
    (hc : createVerifierFromJwk mkPub jwk = some key)
    (hf : ¬ strFalsy jwk.kid = true) :
    supportedKids mkPub (jwk :: rest)
      = jwk.kid.getD "" :: supportedKids mkPub rest := by
  simp [supportedKids, List.filterMap_cons, hc, hf]

/-- `supportedKids` over a cons whose head is skipped. -/
theorem supportedKids_cons_skip {K : Type} (mkPub : String → Option K)
    (jwk : Jwk) (rest : List Jwk)
    (h : createVerifierFromJwk mkPub jwk = none ∨ strFalsy jwk.kid = true) :
    supportedKids mkPub (jwk :: rest) = supportedKids mkPub rest := by
  rcases h with h | h
  · simp [supportedKids, List.filterMap_cons, h]
  · cases hc : createVerifierFromJwk mkPub jwk <;>
      simp [supportedKids, List.filterMap_cons, hc, h]

/-- Keys not written by the import loop keep their previous cache entry
(in particular, previously cached identifiers absent from the response
are retained, not removed). -/
theorem jwksImportFold_untouched {K : Type} (mkPub : String → Option K)
    (now maxAgeMs : Int) :
    ∀ (keys : List Jwk) (cache : List (String × CachedKey (VerifierRec K)))
      (kid : String), kid ∉ supportedKids mkPub keys →
      listGet (jwksImportFold mkPub now maxAgeMs cache keys).1 kid
        = listGet cache kid := by
  intro keys
  induction keys with
  | nil => intro cache kid _; simp [jwksImportFold]
  | cons jwk rest ih =>
    intro cache kid hkid
    cases hc : createVerifierFromJwk mkPub jwk with
    | none =>
      rw [supportedKids_cons_skip mkPub jwk rest (Or.inl hc)] at hkid
      simp only [jwksImportFold, hc]
      exact ih cache kid hkid
    | some key =>
      by_cases hf : strFalsy jwk.kid = true
      · rw [supportedKids_cons_skip mkPub jwk rest (Or.inr hf)] at hkid
        simp only [jwksImportFold, hc, if_pos hf]
        exact ih cache kid hkid
      · rw [supportedKids_cons_some mkPub jwk rest key hc hf] at hkid
        have hk1 : kid ≠ jwk.kid.getD "" :=
          fun hE => hkid (hE ▸ List.mem_cons_self _ _)
        have hk2 : kid ∉ supportedKids mkPub rest :=
          fun hm => hkid (List.mem_cons_of_mem _ hm)
        simp only [jwksImportFold, hc, if_neg hf]
        rw [ih _ kid hk2, listGet_listSet, if_neg hk1]

/-- Every supported key identifier of the response ends up in the merged
cache with the fresh expiry `now + maxAgeMs`. -/
theorem jwksImportFold_supported {K : Type} (mkPub : String → Option K)
    (now maxAgeMs : Int) :
    ∀ (keys : List Jwk) (cache : List (String × CachedKey (VerifierRec K)))
      (kid : String), kid ∈ supportedKids mkPub keys →
      ∃ e, listGet (jwksImportFold mkPub now maxAgeMs cache keys).1 kid
        = some e ∧ e.expiresAt = now + maxAgeMs := by
  intro keys
  induction keys with
  | nil => intro cache kid h; simp [supportedKids] at h
  | cons jwk rest ih =>
    intro cache kid hkid
    cases hc : createVerifierFromJwk mkPub jwk with
    | none =>
      rw [supportedKids_cons_skip mkPub jwk rest (Or.inl hc)] at hkid
      simp only [jwksImportFold, hc]
      exact ih cache kid hkid
    | some key =>
      by_cases hf : strFalsy jwk.kid = true
      · rw [supportedKids_cons_skip mkPub jwk rest (Or.inr hf)] at hkid
        simp only [jwksImportFold, hc, if_pos hf]
        exact ih cache kid hkid
      · rw [supportedKids_cons_some mkPub jwk rest key hc hf] at hkid
        by_cases hr : kid ∈ supportedKids mkPub rest
        · simp only [jwksImportFold, hc, if_neg hf]
          exact ih _ kid hr
        · have hkeq : kid = jwk.kid.getD "" := by
            rcases List.mem_cons.mp hkid with h | h
            · exact h
            · exact absurd h hr
          simp only [jwksImportFold, hc, if_neg hf]
          rw [jwksImportFold_untouched mkPub now maxAgeMs rest _ kid hr,
            listGet_listSet, if_pos hkeq]
          exact ⟨_, rfl, rfl⟩

/-- A non-empty cache stays non-empty through the import loop. -/
theorem jwksImportFold_ne_nil {K : Type} (mkPub : String → Option K)
    (now maxAgeMs : Int) :
    ∀ (keys : List Jwk) (cache : List (String × CachedKey (VerifierRec K))),
      cache ≠ [] → (jwksImportFold mkPub now maxAgeMs cache keys).1 ≠ [] := by
  intro keys
  induction keys with
  | nil => intro cache h; simpa [jwksImportFold] using h
  | cons jwk rest ih =>
    intro cache h
    cases hc : createVerifierFromJwk mkPub jwk with
    | none => simp only [jwksImportFold, hc]; exact ih cache h
    | some key =>
      by_cases hf : strFalsy jwk.kid = true
      · simp only [jwksImportFold, hc, if_pos hf]
        exact ih cache h
      · simp only [jwksImportFold, hc, if_neg hf]
        exact ih _ (listSet_ne_nil cache _ _)

/-- If the merged cache is empty then the original cache was empty and no
key was imported — the source's `!size && imported === 0` test is
equivalent to "the resulting key set is empty". -/
theorem jwksImportFold_nil_count {K : Type} (mkPub : String → Option K)
    (now maxAgeMs : Int) :
    ∀ (keys : List Jwk) (cache : List (String × CachedKey (VerifierRec K))),
      (jwksImportFold mkPub now maxAgeMs cache keys).1 = [] →
      (jwksImportFold mkPub now maxAgeMs cache keys).2 = 0 ∧ cache = [] := by
  intro keys
  induction keys with
  | nil => intro cache h; exact ⟨rfl, by simpa [jwksImportFold] using h⟩
  | cons jwk rest ih =>
    intro cache h
    cases hc : createVerifierFromJwk mkPub jwk with
    | none =>
      simp only [jwksImportFold, hc] at h ⊢
      exact ih cache h
    | some key =>
      by_cases hf : strFalsy jwk.kid = true
      · simp only [jwksImportFold, hc, if_pos hf] at h ⊢
        exact ih cache h
      · exfalso
        simp only [jwksImportFold, hc, if_neg hf] at h
        exact jwksImportFold_ne_nil mkPub now maxAgeMs rest _
          (listSet_ne_nil cache _ _) h

/-- C4 (amended): a successful (non-304, HTTP-ok, well-formed) refresh
upserts exactly the response's supported entries into the existing cache
map — each supported key identifier is present afterwards with the fresh
expiry, unsupported entries are discarded, and previously cached
identifiers absent from the response are retained with their old entries
(not removed); the refresh fails, with `jwks_empty`, exactly when the
resulting merged key set is empty. -/
theorem refresh_success_upsert {K : Type} (mkPub : String → Option K)
    (st : CacheState (VerifierRec K)) (now : Int) (r : JwksResponse)
    (keys : List Jwk) (hdue : st.nextRefresh ≤ now) (h304 : r.status ≠ 304)
    (hok : respOk r) (hkeys : r.keys = some keys) :
    (∀ kid, kid ∉ supportedKids mkPub keys →
      listGet (refreshMerged mkPub st now r keys) kid
        = listGet st.keyCache kid) ∧
    (∀ kid, kid ∈ supportedKids mkPub keys →
      ∃ e, listGet (refreshMerged mkPub st now r keys) kid = some e ∧
        e.expiresAt = now + refreshMaxAgeMs r) ∧
    (refreshMerged mkPub st now r keys = [] ↔
      refresh mkPub st now false (.success r) = .error ⟨"jwks_empty", 401⟩) ∧
    (refreshMerged mkPub st now r keys ≠ [] →
      refresh mkPub st now false (.success r)
        = .ok ⟨refreshMerged mkPub st now r keys, r.etagHeader,
            now + refreshMaxAgeMs r, refreshMaxAgeMs r⟩) := by
  have hnot : ¬ st.nextRefresh > now := not_lt.mpr hdue
  have hunf : refresh mkPub st now false (.success r)
      = if (jwksImportFold mkPub now (refreshMaxAgeMs r) st.keyCache keys).1.length = 0
          ∧ (jwksImportFold mkPub now (refreshMaxAgeMs r) st.keyCache keys).2 = 0
        then .error ⟨"jwks_empty", 401⟩
        else .ok ⟨(jwksImportFold mkPub now (refreshMaxAgeMs r) st.keyCache keys).1,
            r.etagHeader, now + refreshMaxAgeMs r, refreshMaxAgeMs r⟩ := by
    simp only [refresh, refreshMaxAgeMs, hnot, h304, hok, hkeys]
    simp
  refine ⟨fun kid h => jwksImportFold_untouched mkPub now _ keys st.keyCache kid h,
    fun kid h => jwksImportFold_supported mkPub now _ keys st.keyCache kid h, ?_, ?_⟩
  · constructor
    · intro hnil
      have hcnt := jwksImportFold_nil_count mkPub now (refreshMaxAgeMs r) keys
        st.keyCache (by simpa [refreshMerged] using hnil)
      rw [hunf, if_pos ⟨by simp [show (jwksImportFold mkPub now (refreshMaxAgeMs r)
        st.keyCache keys).1 = [] from by simpa [refreshMerged] using hnil],
        hcnt.1⟩]
    · intro herr
      by_contra hne
      have hlen : ¬ ((jwksImportFold mkPub now (refreshMaxAgeMs r) st.keyCache keys).1.length = 0
          ∧ (jwksImportFold mkPub now (refreshMaxAgeMs r) st.keyCache keys).2 = 0) := by
        intro hc
        exact hne (by simpa [refreshMerged] using List.length_eq_zero.mp hc.1)
      rw [hunf, if_neg hlen] at herr
      cases herr
  · intro hne
    have hlen : ¬ ((jwksImportFold mkPub now (refreshMaxAgeMs r) st.keyCache keys).1.length = 0
        ∧ (jwksImportFold mkPub now (refreshMaxAgeMs r) st.keyCache keys).2 = 0) := by
      intro hc
      exact hne (by simpa [refreshMerged] using List.length_eq_zero.mp hc.1)
    rw [hunf, if_neg hlen]
    rfl

theorem refresh_success_upsert_witness :
    refresh (K := String) (fun x => some x)
      ⟨[("old", ⟨⟨"old", ["ed25519"], "xo"⟩, 999⟩)], none, 0, 300000⟩ 0 false
      (.success ⟨200, some "E2", none,
        some [⟨"OKP", "Ed25519", some "x1", some "new"⟩]⟩)
      = .ok ⟨refreshMerged (K := String) (fun x => some x)
          ⟨[("old", ⟨⟨"old", ["ed25519"], "xo"⟩, 999⟩)], none, 0, 300000⟩ 0
          ⟨200, some "E2", none, some [⟨"OKP", "Ed25519", some "x1", some "new"⟩]⟩
          [⟨"OKP", "Ed25519", some "x1", some "new"⟩],
        some "E2", 300000, 300000⟩ :=
  (refresh_success_upsert (K := String) (fun x => some x)
    ⟨[("old", ⟨⟨"old", ["ed25519"], "xo"⟩, 999⟩)], none, 0, 300000⟩ 0
    ⟨200, some "E2", none, some [⟨"OKP", "Ed25519", some "x1", some "new"⟩]⟩
    [⟨"OKP", "Ed25519", some "x1", some "new"⟩]
    (by decide) (by decide) (by decide) rfl).2.2.2 (by decide)

/-- C4 counterexample: after a successful refresh whose response holds
only the supported key `new`, the cache still contains the previously
cached identifier `old` — the cache is not "exactly the response's
supported entries", and identifiers absent from the response are not
removed. -/
theorem refresh_retains_stale_cex :
    refresh (K := String) (fun x => some x)
      ⟨[("old", ⟨⟨"old", ["ed25519"], "xo"⟩, 999⟩)], none, 0, 300000⟩ 0 false
      (.success ⟨200, some "E2", none,
        some [⟨"OKP", "Ed25519", some "x1", some "new"⟩]⟩)
      = .ok ⟨[("old", ⟨⟨"old", ["ed25519"], "xo"⟩, 999⟩),
             ("new", ⟨⟨"new", ["ed25519"], "x1"⟩, 300000⟩)],
          some "E2", 300000, 300000⟩ ∧
    ((supportedKids (K := String) (fun x => some x)
        [⟨"OKP", "Ed25519", some "x1", some "new"⟩]).contains "old" = false) :=
  ⟨rfl, rfl⟩

/-- `timelineKey` is injective in the channel identifier. -/
theorem timelineKey_inj {a b : String} (h : timelineKey a = timelineKey b) :
    a = b := by
  have h1 := congrArg Prod.fst h
  simp only [timelineKey] at h1
  exact string_append_left_cancel h1

/-- `dedupFirst` preserves membership. -/
theorem mem_dedupFirst {a : String} : ∀ {l : List String},
    a ∈ dedupFirst l ↔ a ∈ l := by
  intro l
  induction l with
  | nil => simp [dedupFirst]
  | cons x xs ih =>
    simp only [dedupFirst, List.mem_cons, List.mem_filter, ih,
      decide_eq_true_eq]
    constructor
    · rintro (h | ⟨h1, _⟩)
      · exact Or.inl h
      · exact Or.inr h1
    · rintro (h | h)
      · exact Or.inl h
      · by_cases hax : a = x
        · exact Or.inl hax
        · exact Or.inr ⟨h, hax⟩

/-- Only the empty list deduplicates to the empty list. -/
theorem dedupFirst_eq_nil {l : List String} (h : dedupFirst l = []) : l = [] := by
  cases l with
  | nil => rfl
  | cons x xs => simp [dedupFirst] at h

/-- The three resolutions of one binding attempt (fuel 3) under the
sequential store semantics: create on absence, conflict on a foreign
session, refresh on the own session. -/
theorem bindAttempt_cases (tid sid : String) (nowS exp : Int) (s : RegState) :
    (listGet s (timelineKey tid) = none ∧
      bindAttempt tid sid nowS exp s 3
        = .bound (listSet s (timelineKey tid) ⟨sid, nowS, nowS, exp⟩)) ∨
    (∃ item, listGet s (timelineKey tid) = some item ∧ item.sessionId ≠ sid ∧
      bindAttempt tid sid nowS exp s 3 = .conflict) ∨
    (∃ item, listGet s (timelineKey tid) = some item ∧ item.sessionId = sid ∧
      bindAttempt tid sid nowS exp s 3
        = .bound (listSet s (timelineKey tid)
            { item with lastSeenAt := nowS, expiresAt := exp })) := by
  cases hg : listGet s (timelineKey tid) with
  | none => exact Or.inl ⟨rfl, by simp [bindAttempt, hg]⟩
  | some item =>
    by_cases hs : item.sessionId = sid
    · exact Or.inr (Or.inr ⟨item, rfl, hs, by simp [bindAttempt, hg, hs]⟩)
    · exact Or.inr (Or.inl ⟨item, rfl, hs, by simp [bindAttempt, hg, hs]⟩)

/-- A binding held by a different session is never modified by
`registerAll` — the second session cannot acquire or alter it. -/
theorem registerAll_preserve (sid : String) (nowS exp : Int) :
    ∀ (l : List String) (s : RegState) (k : String × String)
      (b : TimelineBinding),
      listGet s k = some b → b.sessionId ≠ sid →
      listGet (registerAll sid nowS exp s l).2 k = some b := by
  intro l
  induction l with
  | nil => intro s k b hk _; simpa [registerAll] using hk
  | cons tid rest ih =>
    intro s k b hk hb
    rcases bindAttempt_cases tid sid nowS exp s with
      ⟨hnone, heq⟩ | ⟨item, hsome, hne, heq⟩ | ⟨item, hsome, hsid, heq⟩
    · have hkne : k ≠ timelineKey tid := by
        intro hE; rw [hE, hnone] at hk; cases hk
      simp only [registerAll, heq]
      exact ih _ k b (by rw [listGet_listSet, if_neg hkne]; exact hk) hb
    · simp only [registerAll, heq]
      exact hk
    · have hkne : k ≠ timelineKey tid := by
        intro hE
        rw [hE, hsome] at hk
        injection hk with hib
        exact hb (hib ▸ hsid)
      simp only [registerAll, heq]
      exact ih _ k b (by rw [listGet_listSet, if_neg hkne]; exact hk) hb

/-- A binding already held by `sid` stays held by `sid` through
`registerAll` (it may be refreshed, never handed over). -/
theorem registerAll_sid_pres (sid : String) (nowS exp : Int) :
    ∀ (l : List String) (s : RegState) (k : String × String)
      (b : TimelineBinding),
      listGet s k = some b → b.sessionId = sid →
      ∃ nb, listGet (registerAll sid nowS exp s l).2 k = some nb ∧
        nb.sessionId = sid := by
  intro l
  induction l with
  | nil => intro s k b hk hb; exact ⟨b, by simpa [registerAll] using hk, hb⟩
  | cons tid rest ih =>
    intro s k b hk hb
    rcases bindAttempt_cases tid sid nowS exp s with
      ⟨hnone, heq⟩ | ⟨item, hsome, hne, heq⟩ | ⟨item, hsome, hsid, heq⟩
    · have hkne : k ≠ timelineKey tid := by
        intro hE; rw [hE, hnone] at hk; cases hk
      simp only [registerAll, heq]
      exact ih _ k b (by rw [listGet_listSet, if_neg hkne]; exact hk) hb
    · simp only [registerAll, heq]
      exact ⟨b, hk, hb⟩
    · by_cases hkE : k = timelineKey tid
      · simp only [registerAll, heq]
        refine ih _ k { item with lastSeenAt := nowS, expiresAt := exp } ?_ hsid
        rw [hkE, listGet_listSet, if_pos rfl]
      · simp only [registerAll, heq]
        exact ih _ k b (by rw [listGet_listSet, if_neg hkE]; exact hk) hb

/-- When `registerAll` returns `true`, every listed channel identifier is
bound to `sid` in the final state. -/
theorem registerAll_true_bound (sid : String) (nowS exp : Int) :
    ∀ (l : List String) (s : RegState),
      (registerAll sid nowS exp s l).1 = true →
      ∀ tid ∈ l,
        ∃ nb, listGet (registerAll sid nowS exp s l).2 (timelineKey tid)
          = some nb ∧ nb.sessionId = sid := by
  intro l
  induction l with
  | nil => intro s _ tid h; cases h
  | cons hd rest ih =>
    intro s htrue tid hmem
    rcases bindAttempt_cases hd sid nowS exp s with
      ⟨hnone, heq⟩ | ⟨item, hsome, hne, heq⟩ | ⟨item, hsome, hsid, heq⟩
    · simp only [registerAll, heq] at htrue ⊢
      rcases List.mem_cons.mp hmem with rfl | hmem2
      · exact registerAll_sid_pres sid nowS exp rest _ _
          ⟨sid, nowS, nowS, exp⟩ (by rw [listGet_listSet, if_pos rfl]) rfl
      · exact ih _ htrue tid hmem2
    · simp only [registerAll, heq] at htrue
      cases htrue
    · simp only [registerAll, heq] at htrue ⊢
      rcases List.mem_cons.mp hmem with rfl | hmem2
      · exact registerAll_sid_pres sid nowS exp rest _ _
          { item with lastSeenAt := nowS, expiresAt := exp }
          (by rw [listGet_listSet, if_pos rfl]) hsid
      · exact ih _ htrue tid hmem2

/-- The moment some listed channel identifier is bound to a different
session, `registerAll` returns `false`. -/
theorem registerAll_conflict_false (sid : String) (nowS exp : Int) :
    ∀ (l : List String) (s : RegState) (tid : String), tid ∈ l →
      ∀ b, listGet s (timelineKey tid) = some b → b.sessionId ≠ sid →
      (registerAll sid nowS exp s l).1 = false := by
  intro l
  induction l with
  | nil => intro s tid h; cases h
  | cons hd rest ih =>
    intro s tid hmem b hb hbne
    rcases List.mem_cons.mp hmem with rfl | hmem2
    · rcases bindAttempt_cases tid sid nowS exp s with
        ⟨hnone, heq⟩ | ⟨item, hsome, hne, heq⟩ | ⟨item, hsome, hsid, heq⟩
      · rw [hnone] at hb; cases hb
      · simp [registerAll, heq]
      · rw [hsome] at hb
        injection hb with hib
        exact absurd (hib ▸ hsid) hbne
    · rcases bindAttempt_cases hd sid nowS exp s with
        ⟨hnone, heq⟩ | ⟨item, hsome, hne, heq⟩ | ⟨item, hsome, hsid, heq⟩
      · by_cases hk : timelineKey tid = timelineKey hd
        · rw [hk, hnone] at hb; cases hb
        · simp only [registerAll, heq]
          exact ih _ tid hmem2 b
            (by rw [listGet_listSet, if_neg hk]; exact hb) hbne
      · simp [registerAll, heq]
      · by_cases hk : timelineKey tid = timelineKey hd
        · rw [hk, hsome] at hb
          injection hb with hib
          exact absurd (hib ▸ hsid) hbne
        · simp only [registerAll, heq]
          exact ih _ tid hmem2 b
            (by rw [listGet_listSet, if_neg hk]; exact hb) hbne

/-- C2 (amended): for a non-empty session identifier, `checkAndRegister`
returns `true` only with every non-empty channel identifier of the input
bound to `sessionId` in the final state; it returns `false` when any
non-empty input channel is bound to a different session; and a binding
held by a different session is never created, altered or taken over by
this call.  (Calls with an empty session identifier or no non-empty
channel identifiers are no-op successes that bind nothing.) -/
theorem checkAndRegister_session_exclusivity (s : RegState)
    (ids : List String) (sid : String) (ttl : Option Int) (dflt : Int)
    (nowS : Int) (hsid : sid ≠ "") :
    ((checkAndRegister s ids sid ttl dflt nowS).1 = true →
      ∀ tid ∈ ids, tid ≠ "" →
        ∃ nb, listGet (checkAndRegister s ids sid ttl dflt nowS).2
          (timelineKey tid) = some nb ∧ nb.sessionId = sid) ∧
    (∀ tid ∈ ids, tid ≠ "" → ∀ b, listGet s (timelineKey tid) = some b →
      b.sessionId ≠ sid → (checkAndRegister s ids sid ttl dflt nowS).1 = false) ∧
    (∀ k b, listGet s k = some b → b.sessionId ≠ sid →
      listGet (checkAndRegister s ids sid ttl dflt nowS).2 k = some b) := by
  by_cases hlen : ids.length = 0
  · have hids : ids = [] := List.length_eq_zero.mp hlen
    subst hids
    refine ⟨fun _ tid h => absurd h (List.not_mem_nil tid),fun tid h => absurd h (List.not_mem_nil tid), ?_⟩
    intro k b hk _
    simpa [checkAndRegister] using hk
  · have hguard : ¬ (ids.length = 0 ∨ sid = "") := by
      push_neg
      exact ⟨hlen, hsid⟩
    by_cases hu : (dedupFirst (ids.filter (fun t => t ≠ ""))).length = 0
    · have hfil : ids.filter (fun t => t ≠ "") = [] :=
        dedupFirst_eq_nil (List.length_eq_zero.mp hu)
      have hnomem : ∀ tid ∈ ids, tid ≠ "" → False := by
        intro tid hmem hne
        have : tid ∈ ids.filter (fun t => t ≠ "") :=
          List.mem_filter.mpr ⟨hmem, by simpa using hne⟩
        rw [hfil] at this
        cases this
      refine ⟨fun _ tid hmem hne => (hnomem tid hmem hne).elim,
        fun tid hmem hne => (hnomem tid hmem hne).elim, ?_⟩
      intro k b hk _
      have hstep : checkAndRegister s ids sid ttl dflt nowS = (true, s) := by
        simp only [checkAndRegister]
        rw [if_neg hguard, if_pos hu]
      rw [hstep]
      exact hk
    · have hstep : checkAndRegister s ids sid ttl dflt nowS
          = registerAll sid nowS (nowS + max 1 (ttl.getD dflt) * 3600) s
              (dedupFirst (ids.filter (fun t => t ≠ ""))) := by
        simp only [checkAndRegister]
        rw [if_neg hguard, if_neg hu]
      refine ⟨?_, ?_, ?_⟩
      · intro htrue tid hmem hne
        rw [hstep] at htrue ⊢
        exact registerAll_true_bound sid nowS _ _ s htrue tid
          (mem_dedupFirst.mpr (List.mem_filter.mpr ⟨hmem, by simpa using hne⟩))
      · intro tid hmem hne b hb hbne
        rw [hstep]
        exact registerAll_conflict_false sid nowS _ _ s tid
          (mem_dedupFirst.mpr (List.mem_filter.mpr ⟨hmem, by simpa using hne⟩))
          b hb hbne
      · intro k b hk hbne
        rw [hstep]
        exact registerAll_preserve sid nowS _ _ s k b hk hbne

theorem checkAndRegister_session_exclusivity_witness :
    (checkAndRegister [(timelineKey "t1", ⟨"S1", 0, 0, 100⟩)] ["t1"] "S2"
      none 48 0).1 = false :=
  (checkAndRegister_session_exclusivity
      [(timelineKey "t1", ⟨"S1", 0, 0, 100⟩)] ["t1"] "S2" none 48 0
      (by decide)).2.1
    "t1" (List.mem_singleton.mpr rfl) (by decide) ⟨"S1", 0, 0, 100⟩ rfl
    (by decide)

/-- C2 counterexample: with an empty session identifier — and likewise
with an empty-string channel identifier — the call returns `true` while
the channel identifier in the input set is left unbound, so the claim's
"true only if every channel identifier in the input set was confirmed
bound to sessionId" fails as stated. -/
theorem checkAndRegister_empty_session_cex :
    (checkAndRegister [] ["t1"] "" none 48 0 = (true, []) ∧
      listGet ([] : RegState) (timelineKey "t1") = none) ∧
    (checkAndRegister [] [""] "S1" none 48 0 = (true, []) ∧
      listGet ([] : RegState) (timelineKey "") = none) :=
  ⟨⟨rfl, rfl⟩, ⟨rfl, rfl⟩⟩

/-- The budget bucket key is determined by the budget name and the UTC
calendar hour of `now`. -/
theorem budgetKey_congr (b : String) (d d' : JsDate)
    (h : formatUtcHour d = formatUtcHour d') : budgetKey b d = budgetKey b d' := by
  unfold budgetKey
  rw [h]

theorem budgetKey_ne (b : String) (d d' : JsDate)
    (h : formatUtcHour d ≠ formatUtcHour d') : budgetKey b d ≠ budgetKey b d' := by
  intro hEq
  have h2 := congrArg Prod.snd hEq
  simp only [budgetKey] at h2
  exact h (string_append_left_cancel h2)

/-- Full characterization of one `tryConsume` call: success exactly while
the counter is absent or below the limit, the counter is then created at 1
or incremented, a failed condition leaves the table untouched and is an
ordinary `false`, and no other bucket is written. -/
theorem tryConsume_spec (s : BudgetState) (b : String) (ws lim : Int)
    (now : JsDate) :
    ((tryConsume s b ws lim now).1 = true ↔
      ∀ item, listGet s (budgetKey b now) = some item → item.count < lim) ∧
    ((tryConsume s b ws lim now).1 = false → (tryConsume s b ws lim now).2 = s) ∧
    (listGet s (budgetKey b now) = none →
      listGet (tryConsume s b ws lim now).2 (budgetKey b now)
        = some ⟨1, lim, computeExpiry now ws⟩) ∧
    (∀ item, listGet s (budgetKey b now) = some item → item.count < lim →
      listGet (tryConsume s b ws lim now).2 (budgetKey b now)
        = some ⟨item.count + 1, lim, computeExpiry now ws⟩) ∧
    (∀ k, k ≠ budgetKey b now →
      listGet (tryConsume s b ws lim now).2 k = listGet s k) := by
  refine ⟨?_, ?_, ?_, ?_, ?_⟩
  · cases hg : listGet s (budgetKey b now) with
    | none => simp [tryConsume, hg]
    | some item =>
      by_cases hc : item.count < lim <;> simp [tryConsume, hg, hc]
  · cases hg : listGet s (budgetKey b now) with
    | none => simp [tryConsume, hg]
    | some item =>
      by_cases hc : item.count < lim <;> simp [tryConsume, hg, hc]
  · intro hg
    simp [tryConsume, hg, listGet_listSet]
  · intro item hg hc
    simp [tryConsume, hg, hc, listGet_listSet]
  · intro k hk
    cases hg : listGet s (budgetKey b now) with
    | none => simp [tryConsume, hg, listGet_listSet, hk]
    | some item =>
      by_cases hc : item.count < lim <;>
        simp [tryConsume, hg, hc, listGet_listSet, hk]

/-- C6: consumption is attributed to the UTC calendar-hour bucket of
`now` and the counter is incremented atomically only while absent or
below the limit: with limit 2 and a fresh hour bucket, two calls in the
same UTC hour succeed, a third returns an ordinary `false` leaving the
table untouched, and a call in the next (fresh) UTC hour succeeds again;
in general a call succeeds exactly while the bucket's counter is absent
or below the limit, a failed condition changes no state, and no other
bucket is affected. -/
theorem tryConsume_hourly_budget (s : BudgetState) (b : String) (ws : Int)
    (d1 d2 d3 d4 : JsDate)
    (h12 : formatUtcHour d2 = formatUtcHour d1)
    (h13 : formatUtcHour d3 = formatUtcHour d1)
    (h14 : formatUtcHour d4 ≠ formatUtcHour d1)
    (habs1 : listGet s (budgetKey b d1) = none)
    (habs4 : listGet s (budgetKey b d4) = none) :
    ((tryConsume s b ws 2 d1).1 = true ∧
     (tryConsume (tryConsume s b ws 2 d1).2 b ws 2 d2).1 = true ∧
     (tryConsume (tryConsume (tryConsume s b ws 2 d1).2 b ws 2 d2).2
        b ws 2 d3).1 = false ∧
     (tryConsume (tryConsume (tryConsume s b ws 2 d1).2 b ws 2 d2).2
        b ws 2 d3).2 = (tryConsume (tryConsume s b ws 2 d1).2 b ws 2 d2).2 ∧
     (tryConsume (tryConsume (tryConsume (tryConsume s b ws 2 d1).2
        b ws 2 d2).2 b ws 2 d3).2 b ws 2 d4).1 = true) ∧
    (∀ (s' : BudgetState) (b' : String) (ws' lim : Int) (now : JsDate),
      ((tryConsume s' b' ws' lim now).1 = true ↔
        ∀ item, listGet s' (budgetKey b' now) = some item → item.count < lim) ∧
      ((tryConsume s' b' ws' lim now).1 = false →
        (tryConsume s' b' ws' lim now).2 = s') ∧
      (∀ k, k ≠ budgetKey b' now →
        listGet (tryConsume s' b' ws' lim now).2 k = listGet s' k)) := by
  refine ⟨?_, fun s' b' ws' lim now =>
    ⟨(tryConsume_spec s' b' ws' lim now).1, (tryConsume_spec s' b' ws' lim now).2.1,
     (tryConsume_spec s' b' ws' lim now).2.2.2.2⟩⟩
  have hk2 : budgetKey b d2 = budgetKey b d1 := budgetKey_congr b d2 d1 h12
  have hk3 : budgetKey b d3 = budgetKey b d1 := budgetKey_congr b d3 d1 h13
  have hk4 : budgetKey b d4 ≠ budgetKey b d1 := budgetKey_ne b d4 d1 h14
  -- call 1: create the bucket at count 1
  have r1 : (tryConsume s b ws 2 d1).1 = true :=
    (tryConsume_spec s b ws 2 d1).1.mpr (fun item h => by rw [habs1] at h; cases h)
  have l1 : listGet (tryConsume s b ws 2 d1).2 (budgetKey b d1)
      = some ⟨1, 2, computeExpiry d1 ws⟩ :=
    (tryConsume_spec s b ws 2 d1).2.2.1 habs1
  -- call 2: increment to 2
  have l1' : listGet (tryConsume s b ws 2 d1).2 (budgetKey b d2)
      = some ⟨1, 2, computeExpiry d1 ws⟩ := by rw [hk2]; exact l1
  have r2 : (tryConsume (tryConsume s b ws 2 d1).2 b ws 2 d2).1 = true :=
    (tryConsume_spec _ b ws 2 d2).1.mpr
      (fun item h => by rw [l1'] at h; cases h; show (1 : Int) < 2; decide)
  have l2 : listGet (tryConsume (tryConsume s b ws 2 d1).2 b ws 2 d2).2
      (budgetKey b d2) = some ⟨2, 2, computeExpiry d2 ws⟩ :=
    (tryConsume_spec _ b ws 2 d2).2.2.2.1 ⟨1, 2, computeExpiry d1 ws⟩ l1'
      (by show (1 : Int) < 2; decide)
  have l2' : listGet (tryConsume (tryConsume s b ws 2 d1).2 b ws 2 d2).2
      (budgetKey b d3) = some ⟨2, 2, computeExpiry d2 ws⟩ := by
    rw [hk3, ← hk2]; exact l2
  -- call 3: budget exhausted, state untouched
  have r3 : (tryConsume (tryConsume (tryConsume s b ws 2 d1).2 b ws 2 d2).2
      b ws 2 d3).1 = false := by
    cases hb : (tryConsume (tryConsume (tryConsume s b ws 2 d1).2 b ws 2 d2).2
        b ws 2 d3).1 with
    | false => rfl
    | true =>
      have := ((tryConsume_spec _ b ws 2 d3).1.mp hb) _ l2'
      exact absurd this (by show ¬ (2 : Int) < 2; decide)
  have st3 : (tryConsume (tryConsume (tryConsume s b ws 2 d1).2 b ws 2 d2).2
      b ws 2 d3).2 = (tryConsume (tryConsume s b ws 2 d1).2 b ws 2 d2).2 :=
    (tryConsume_spec _ b ws 2 d3).2.1 r3
  -- call 4: the next hour's bucket is fresh
  have hk42 : budgetKey b d4 ≠ budgetKey b d2 := by rw [hk2]; exact hk4
  have l4 : listGet (tryConsume (tryConsume (tryConsume s b ws 2 d1).2
      b ws 2 d2).2 b ws 2 d3).2 (budgetKey b d4) = none := by
    rw [st3]
    rw [(tryConsume_spec _ b ws 2 d2).2.2.2.2 (budgetKey b d4) hk42]
    rw [(tryConsume_spec s b ws 2 d1).2.2.2.2 (budgetKey b d4) hk4]
    exact habs4
  have r4 : (tryConsume (tryConsume (tryConsume (tryConsume s b ws 2 d1).2
      b ws 2 d2).2 b ws 2 d3).2 b ws 2 d4).1 = true :=
    (tryConsume_spec _ b ws 2 d4).1.mpr
      (fun item h => by rw [l4] at h; cases h)
  exact ⟨r1, r2, r3, st3, r4⟩

theorem tryConsume_hourly_budget_witness :
    (tryConsume [] "openai" 3600 2 ⟨2026, 9, 11, 5⟩).1 = true ∧
    (tryConsume (tryConsume [] "openai" 3600 2 ⟨2026, 9, 11, 5⟩).2
      "openai" 3600 2 ⟨2026, 9, 11, 5⟩).1 = true ∧
    (tryConsume (tryConsume (tryConsume [] "openai" 3600 2 ⟨2026, 9, 11, 5⟩).2
      "openai" 3600 2 ⟨2026, 9, 11, 5⟩).2 "openai" 3600 2 ⟨2026, 9, 11, 5⟩).1
      = false ∧
    (tryConsume (tryConsume (tryConsume [] "openai" 3600 2 ⟨2026, 9, 11, 5⟩).2
      "openai" 3600 2 ⟨2026, 9, 11, 5⟩).2 "openai" 3600 2 ⟨2026, 9, 11, 5⟩).2
      = (tryConsume (tryConsume [] "openai" 3600 2 ⟨2026, 9, 11, 5⟩).2
        "openai" 3600 2 ⟨2026, 9, 11, 5⟩).2 ∧
    (tryConsume (tryConsume (tryConsume (tryConsume []
      "openai" 3600 2 ⟨2026, 9, 11, 5⟩).2 "openai" 3600 2 ⟨2026, 9, 11, 5⟩).2
      "openai" 3600 2 ⟨2026, 9, 11, 5⟩).2 "openai" 3600 2 ⟨2026, 9, 11, 6⟩).1
      = true :=
  (tryConsume_hourly_budget [] "openai" 3600 ⟨2026, 9, 11, 5⟩ ⟨2026, 9, 11, 5⟩
    ⟨2026, 9, 11, 5⟩ ⟨2026, 9, 11, 6⟩ rfl rfl (by decide) rfl rfl).1

/-- Evaluation of `verify` when every guard passes: it returns the
delivery id together with the replay-store lookup. -/
theorem verify_valid_eval (cfg : VerifierConfig) (req : WebhookRequest)
    (nowS : Int) (d : String) (h : ValidRequest cfg req nowS d)
    (store : DeliveryStore) :
    verify cfg req nowS store
      = .ok ⟨d, (listGet store ("WEBHOOK#DELIVERY", d)).isSome⟩ := by
  obtain ⟨hdig, ⟨tstr, ts, hts1, hts2, hts3, hts4⟩, hdid, hdne,
    ⟨si, hsi1, hsi2⟩, ⟨sg, hsg1, hsg2⟩, hsig⟩ := h
  have hndig := computeContentDigest_ne_empty cfg.hashB64 req.rawBody
  simp only [verify, hdig, hts1, hts3, hdid, hsi1, hsg1, hsig]
  simp [hndig, hts2, hdne, hsi2, hsg2, not_lt.mpr hts4, strFalsy,
    sigVerifyResult, hasSeen]

/-- Evaluation of `verify` on a present but mismatching content digest:
the rejection is `invalid_content_digest` for every signature outcome,
clock value and store — later pipeline stages are never consulted. -/
theorem verify_digest_mismatch_eval (cfg : VerifierConfig)
    (hs : List (String × String)) (body : List Nat) (c : String)
    (hdr : listGet (normalizeHeaders hs) "content-digest" = some c)
    (hne : c ≠ "") (hmm : c ≠ computeContentDigest cfg.hashB64 body) :
    ∀ (sig : SigOutcome) (nowS : Int) (store : DeliveryStore),
      verify cfg ⟨hs, body, sig⟩ nowS store
        = .error (.verification ⟨"invalid_content_digest", 400⟩) := by
  intro sig nowS store
  simp [verify, hdr, hne, hmm]

/-- Evaluation of `verify` when the timestamp header is absent, empty, or
not a number: `missing_timestamp`, for every tolerance and clock value. -/
theorem verify_missing_timestamp_eval (hs : List (String × String))
    (body : List Nat) (hashB64 : List Nat → String)
    (hdr : listGet (normalizeHeaders hs) "content-digest"
      = some (computeContentDigest hashB64 body))
    (hts : listGet (normalizeHeaders hs) "x-myos-timestamp" = none ∨
           listGet (normalizeHeaders hs) "x-myos-timestamp" = some "" ∨
           ∃ t, listGet (normalizeHeaders hs) "x-myos-timestamp" = some t ∧
             t ≠ "" ∧ jsNumber t = none) :
    ∀ (tol : Rat) (replayTtl : Int) (nowS : Int) (sig : SigOutcome)
      (store : DeliveryStore),
      verify ⟨tol, replayTtl, hashB64⟩ ⟨hs, body, sig⟩ nowS store
        = .error (.verification ⟨"missing_timestamp", 400⟩) := by
  intro tol replayTtl nowS sig store
  have hndig := computeContentDigest_ne_empty hashB64 body
  rcases hts with h | h | ⟨t, h1, h2, h3⟩
  · simp [verify, hdr, hndig, h]
  · simp [verify, hdr, hndig, h]
  · simp [verify, hdr, hndig, h1, h2, h3]

/-- Evaluation of `verify` on a parseable timestamp outside the freshness
window: `timestamp_out_of_window`. -/
theorem verify_stale_timestamp_eval (cfg : VerifierConfig)
    (hs : List (String × String)) (body : List Nat) (t : String) (q : Rat)
    (hdr : listGet (normalizeHeaders hs) "content-digest"
      = some (computeContentDigest cfg.hashB64 body))
    (ht1 : listGet (normalizeHeaders hs) "x-myos-timestamp" = some t)
    (ht2 : t ≠ "") (ht3 : jsNumber t = some q) (nowS : Int)
    (hstale : |(nowS : Rat) - q| > cfg.toleranceSeconds) :
    ∀ (sig : SigOutcome) (store : DeliveryStore),
      verify cfg ⟨hs, body, sig⟩ nowS store
        = .error (.verification ⟨"timestamp_out_of_window", 400⟩) := by
  intro sig store
  have hndig := computeContentDigest_ne_empty cfg.hashB64 body
  simp [verify, hdr, hndig, ht1, ht2, ht3, hstale]

/-- C1: a valid signed request within tolerance verifies with
`duplicate = false` while its delivery identifier is unseen; after
`markDelivered` commits the delivery record with a conditional
create-if-absent write, any subsequent valid request carrying the same
delivery identifier verifies with `duplicate = true`. -/
theorem verify_replay_roundtrip (cfg : VerifierConfig)
    (req req2 : WebhookRequest) (nowS nowS2 nowMs : Int)
    (store : DeliveryStore) (d : String)
    (h1 : ValidRequest cfg req nowS d) (h2 : ValidRequest cfg req2 nowS2 d)
    (hfresh : listGet store ("WEBHOOK#DELIVERY", d) = none) :
    verify cfg req nowS store = .ok ⟨d, false⟩ ∧
    (∃ store2, markDelivered cfg store d nowMs = .ok store2 ∧
      listGet store2 ("WEBHOOK#DELIVERY", d) ≠ none) ∧
    (∀ store3, listGet store3 ("WEBHOOK#DELIVERY", d) ≠ none →
      verify cfg req2 nowS2 store3 = .ok ⟨d, true⟩) := by
  have hdne : d ≠ "" := h1.2.2.2.1
  refine ⟨?_, ?_, ?_⟩
  · rw [verify_valid_eval cfg req nowS d h1 store, hfresh]
    rfl
  · have hstep : markDelivered cfg store d nowMs
        = .ok (listSet store ("WEBHOOK#DELIVERY", d)
            ⟨Int.fdiv nowMs 1000,
             Int.fdiv nowMs 1000 + max 1 cfg.replayTtlSeconds⟩) := by
      simp [markDelivered, markHandled, hdne, hfresh]
    refine ⟨_, hstep, ?_⟩
    rw [listGet_listSet]
    simp
  · intro store3 h3
    rw [verify_valid_eval cfg req2 nowS2 d h2 store3]
    cases hg : listGet store3 ("WEBHOOK#DELIVERY", d)
    · exact absurd hg h3
    · rfl

theorem verify_replay_roundtrip_witness :
    verify ⟨10, 60, fun _ => "H"⟩
      ⟨[("content-digest", "sha-256=:H:"), ("x-myos-timestamp", "100"),
        ("x-myos-delivery-id", "d1"), ("signature-input", "si"),
        ("signature", "sg")], [1], .ok⟩ 100 [] = .ok ⟨"d1", false⟩ := by
  have hv : ValidRequest ⟨10, 60, fun _ => "H"⟩
      ⟨[("content-digest", "sha-256=:H:"), ("x-myos-timestamp", "100"),
        ("x-myos-delivery-id", "d1"), ("signature-input", "si"),
        ("signature", "sg")], [1], .ok⟩ 100 "d1" := by
    refine ⟨rfl, ⟨"100", 100, rfl, by decide, rfl, by norm_num⟩, rfl,
      by decide, ⟨"si", rfl, by decide⟩, ⟨"sg", rfl, by decide⟩, rfl⟩
  exact (verify_replay_roundtrip ⟨10, 60, fun _ => "H"⟩ _ _ 100 100 123456 []
    "d1" hv hv rfl).1

/-- C3 (amended): in `verify`, the malformed-input failures and the
digest-mismatch and stale-timestamp rejections carry status hint 400,
while the signature-stage failures (bad signature, unknown key — both
collapsed to `invalid_signature` — and the indeterminate outcome) carry
status hint 401: an error's status is 401 exactly when its reason is one
of the two signature reasons. -/
theorem verify_status_hints (cfg : VerifierConfig) (req : WebhookRequest)
    (nowS : Int) (store : DeliveryStore) (e : VError)
    (hsig : req.sigOutcome = .ok ∨ req.sigOutcome = .indeterminate ∨
      req.sigOutcome = .otherError)
    (herr : verify cfg req nowS store = .error (.verification e)) :
    (e.statusCode = 401 ↔
      (e.reason = "invalid_signature" ∨ e.reason = "signature_indeterminate")) ∧
    (e.statusCode = 400 ∨ e.statusCode = 401) := by
  rcases hsig with h | h | h <;>
    simp only [verify] at herr <;> rw [h] at herr <;>
    simp only [sigVerifyResult] at herr <;> (repeat' split at herr)
  all_goals first
    | exact Except.noConfusion herr
    | (injection herr with h1; exact VerifyFailure.noConfusion h1)
    | (injection herr with h1; injection h1 with h2; subst h2; decide)

theorem verify_status_hints_witness :
    ((VError.mk "missing_content_digest" 400).statusCode = 401 ↔
      ((VError.mk "missing_content_digest" 400).reason = "invalid_signature" ∨
       (VError.mk "missing_content_digest" 400).reason = "signature_indeterminate")) ∧
    ((VError.mk "missing_content_digest" 400).statusCode = 400 ∨
     (VError.mk "missing_content_digest" 400).statusCode = 401) :=
  verify_status_hints ⟨10, 60, fun _ => "H"⟩ ⟨[], [1], .ok⟩ 0 []
    ⟨"missing_content_digest", 400⟩ (Or.inl rfl) rfl

/-- C3 counterexample: a content-digest mismatch — an authentication
failure per the claim — is raised with HTTP-status hint 400, not 401. -/
theorem verify_digest_status_cex :
    verify ⟨10, 60, fun _ => "H"⟩
      ⟨[("content-digest", "sha-256=:X:")], [1], .ok⟩ 0 []
      = .error (.verification ⟨"invalid_content_digest", 400⟩) ∧
    (400 : Nat) ≠ 401 := by
  refine ⟨?_, by decide⟩
  exact verify_digest_mismatch_eval ⟨10, 60, fun _ => "H"⟩
    [("content-digest", "sha-256=:X:")] [1] "sha-256=:X:"
    rfl (by decide) (by decide) .ok 0 []

/-- C5: a present content-digest header differing byte-for-byte from the
recomputed `sha-256=:base64(SHA-256(body)):` value rejects with
`invalid_content_digest`, and the result is the same for every signature
outcome, clock and store — signature verification is never attempted. -/
theorem verify_digest_mismatch_halts (cfg : VerifierConfig)
    (hs : List (String × String)) (body : List Nat) (c : String)
    (hdr : listGet (normalizeHeaders hs) "content-digest" = some c)
    (hne : c ≠ "") (hmm : c ≠ computeContentDigest cfg.hashB64 body) :
    ∀ (sig : SigOutcome) (nowS : Int) (store : DeliveryStore),
      verify cfg ⟨hs, body, sig⟩ nowS store
        = .error (.verification ⟨"invalid_content_digest", 400⟩) :=
  verify_digest_mismatch_eval cfg hs body c hdr hne hmm

theorem verify_digest_mismatch_halts_witness :
    verify ⟨10, 60, fun _ => "H"⟩
      ⟨[("content-digest", "sha-256=:X:")], [1], .otherError⟩ 7 []
      = .error (.verification ⟨"invalid_content_digest", 400⟩) :=
  verify_digest_mismatch_halts ⟨10, 60, fun _ => "H"⟩
    [("content-digest", "sha-256=:X:")] [1] "sha-256=:X:"
    rfl (by decide) (by decide) .otherError 7 []

/-- C8 (amended): a timestamp header that is absent, empty, or does not
parse as a number (JS `Number` yields `NaN`) rejects with
`missing_timestamp`, for every tolerance and clock value — before the
freshness-window comparison; a header parsing to a non-integer number
passes this guard instead. -/
theorem verify_missing_timestamp_guard (hs : List (String × String))
    (body : List Nat) (hashB64 : List Nat → String)
    (hdr : listGet (normalizeHeaders hs) "content-digest"
      = some (computeContentDigest hashB64 body))
    (hts : listGet (normalizeHeaders hs) "x-myos-timestamp" = none ∨
           listGet (normalizeHeaders hs) "x-myos-timestamp" = some "" ∨
           ∃ t, listGet (normalizeHeaders hs) "x-myos-timestamp" = some t ∧
             t ≠ "" ∧ jsNumber t = none) :
    ∀ (tol : Rat) (replayTtl : Int) (nowS : Int) (sig : SigOutcome)
      (store : DeliveryStore),
      verify ⟨tol, replayTtl, hashB64⟩ ⟨hs, body, sig⟩ nowS store
        = .error (.verification ⟨"missing_timestamp", 400⟩) :=
  verify_missing_timestamp_eval hs body hashB64 hdr hts

theorem verify_missing_timestamp_guard_witness :
    verify ⟨10, 60, fun _ => "H"⟩
      ⟨[("content-digest", "sha-256=:H:"), ("x-myos-timestamp", "abc")],
       [1], .ok⟩ 0 []
      = .error (.verification ⟨"missing_timestamp", 400⟩) :=
  verify_missing_timestamp_guard
    [("content-digest", "sha-256=:H:"), ("x-myos-timestamp", "abc")]
    [1] (fun _ => "H") rfl
    (Or.inr (Or.inr ⟨"abc", rfl, by decide, rfl⟩)) 10 60 0 .ok []

/-- C8 counterexample: the header value `"1.5"` does not parse as a Unix
integer (it is the non-integer rational 3/2), yet `verify` does not
reject it with `missing_timestamp` — the guard passes and the request is
instead judged by the freshness window. -/
theorem verify_noninteger_timestamp_cex :
    verify ⟨10, 60, fun _ => "H"⟩
      ⟨[("content-digest", "sha-256=:H:"), ("x-myos-timestamp", "1.5")],
       [1], .ok⟩ 100 []
      = .error (.verification ⟨"timestamp_out_of_window", 400⟩) ∧
    jsNumber "1.5" = some (3 / 2) ∧ ((3 : Rat) / 2).den ≠ 1 := by
  have hjs : jsNumber "1.5"
      = some ((natOfDigits ['1'] : Rat) + (natOfDigits ['5'] : Rat) / 10 ^ 1) := rfl
  have hval : ((natOfDigits ['1'] : Rat) + (natOfDigits ['5'] : Rat) / 10 ^ 1)
      = 3 / 2 := by
    rw [show natOfDigits ['1'] = 1 from rfl, show natOfDigits ['5'] = 5 from rfl]
    norm_num
  have hjs2 : jsNumber "1.5" = some (3 / 2) := by rw [hjs, hval]
  refine ⟨?_, hjs2, by norm_num⟩
  have h100 : ((100 : Int) : Rat) = 100 := by norm_num
  have hstale : |((100 : Int) : Rat) - 3 / 2| > 10 := by
    rw [h100, abs_of_pos (by norm_num : (0 : Rat) < 100 - 3 / 2)]
    norm_num
  exact verify_stale_timestamp_eval ⟨10, 60, fun _ => "H"⟩
    [("content-digest", "sha-256=:H:"), ("x-myos-timestamp", "1.5")]
    [1] "1.5" (3 / 2) rfl rfl (by decide) hjs2 100 hstale .ok []

theorem refresh_not_modified_extends_witness :
    refresh (K := String) (fun x => some x)
      ⟨[("k1", ⟨⟨"k1", ["ed25519"], "x"⟩, 100⟩)], some "E", 0, 300000⟩ 50 false
      (.success ⟨304, none, none, none⟩)
      = .ok ⟨[("k1", ⟨⟨"k1", ["ed25519"], "x"⟩, 300050⟩)], some "E", 300050, 300000⟩ := by
  have h := (refresh_not_modified_extends (K := String) (fun x => some x)
    ⟨[("k1", ⟨⟨"k1", ["ed25519"], "x"⟩, 100⟩)], some "E", 0, 300000⟩ 50
    ⟨304, none, none, none⟩ (by decide) rfl).1
  exact h
